import Mathlib

/-
Shallow embedding of the CustomLS utility (src/main.c): a small `ls` clone
with long-format listing, recursive traversal, hidden-file filtering,
count-only mode and human-readable sizes.

Modelling conventions:
- The filesystem and the libc collaborators (lstat, opendir, readlink,
  getpwuid, getgrgid, strftime, strerror, and the current time) are an
  abstract record `FS` of pure functions; a failing call returns
  `Except.error` carrying the errno class the C code distinguishes.
- The mutable process state (the global `err_code`, the global `file_count`,
  the text written by `printf`) is threaded explicitly as `St`.  Listing
  lines and headers go to `St.out`; the diagnostic lines produced by the
  `PRINT_ERROR` macro are kept in a separate `St.diag` stream (in the C both
  go to stdout via `printf`; keeping them apart lets theorems speak about
  listing output on its own, the way the specification does).
- The globals `count_only` and `human_readable` set during option parsing
  are a read-only record `Globals`.
- `snprintf`/`strncpy` truncation to a fixed buffer is modelled by
  `c_truncate`.  The C `double` arithmetic of `format_size_human` is
  modelled by an exact fraction over `Int`; for every size below 2^53 the
  `double` value is exact, so the model agrees with the C on that range
  (`%.1f` rounds to nearest with ties to even, mirrored by
  `round_half_even`; ties arise only at dyadic one-decimal midpoints).
- `list_dir` recurses through subdirectories; the recursion is driven by an
  explicit fuel parameter (the C recursion is bounded by the finite,
  acyclic directory tree; theorems supply enough fuel).
-/

set_option maxRecDepth 100000

namespace CustomLS

/-- Errno classes distinguished by `handle_error` in the C code. -/
inductive Errno where
  | enoent
  | eacces
  | eperm
  | eother
deriving DecidableEq

/-- File type tag extracted from `st_mode` (`S_ISDIR`/`S_ISREG`/`S_ISLNK`). -/
inductive FType where
  | dir
  | reg
  | lnk
  | other
deriving DecidableEq

/-- The fields of `struct stat` the program reads.  `perm` holds the nine
permission bits (`S_IRUSR` = bit 8 down to `S_IXOTH` = bit 0). -/
structure FileStat where
  ftype : FType
  perm : Nat
  nlink : Nat
  uid : Nat
  gid : Nat
  size : Int
  mtime : Int
deriving DecidableEq

/-- The external collaborators: filesystem calls and libc lookups, plus the
current time `now` read by `timespec_get` and the `strftime` renderer. -/
structure FS where
  lstat : String → Except Errno FileStat
  opendir : String → Except Errno (List String)
  readlink : String → Option String
  getpwuid : Nat → Option String
  getgrgid : Nat → Option String
  strftime : String → Int → String
  strerror : Errno → String
  now : Int

/-- The two mode globals set during option parsing that the listing engine
reads (`count_only`, `human_readable`). -/
structure Globals where
  count_only : Bool
  human_readable : Bool
deriving DecidableEq

/-- The mutable process state: the accumulated exit-status bitmask
`err_code`, the `-n` counter `file_count`, the listing lines written to
stdout, and the diagnostic lines of `PRINT_ERROR`. -/
structure St where
  err_code : Nat
  file_count : Nat
  out : List String
  diag : List String
deriving DecidableEq

/-- The all-zero initial state of `main`. -/
def init_st : St := ⟨0, 0, [], []⟩

/-- Truncating copy into a buffer of capacity `n` characters: the effect of
`snprintf`/`strncpy` with a fixed-size destination. -/
def c_truncate (s : String) (n : Nat) : String :=
  String.mk (s.data.take n)

/-- printf `%*s`: left-pad with spaces to a minimum width. -/
def pad_left (w : Nat) (s : String) : String :=
  String.mk (List.replicate (w - s.length) ' ') ++ s

/-- printf `%-*s`: right-pad with spaces to a minimum width. -/
def pad_right (w : Nat) (s : String) : String :=
  s ++ String.mk (List.replicate (w - s.length) ' ')

/-- The hidden-entry test `d_name[0] == '.'`. -/
def first_char_dot (s : String) : Bool :=
  s.data.head? == some '.'

/-- The self-reference test `strcmp(name, ".") == 0 || strcmp(name, "..") == 0`. -/
def name_is_self_ref (name : String) : Bool :=
  name == "." || name == ".."

/-- The cause-specific exit-status bit chosen by `handle_error` from the
saved errno: `ENOENT` → 8 (not found), `EACCES`/`EPERM` → 16 (permission
denied), anything else → 32. -/
def cause_bit (e : Errno) : Nat :=
  match e with
  | .enoent => 8
  | .eacces => 16
  | .eperm => 16
  | .eother => 32

/-- `handle_error(what_happened, fullname)`: prints one diagnostic line via
`PRINT_ERROR` and ORs the general-error bit 64 plus one cause bit into
`err_code`. -/
def handle_error (fs : FS) (what_happened fullname : String) (e : Errno) (st : St) : St :=
  { st with
    diag := st.diag ++ ["ls: " ++ what_happened ++ " " ++ fullname ++ ": " ++ fs.strerror e]
    err_code := st.err_code ||| 64 ||| cause_bit e }

/-- `test_file()`: stat the path; on failure report "cannot access" and
return false. -/
def test_file (fs : FS) (pathandname : String) (st : St) : Bool × St :=
  match fs.lstat pathandname with
  | .error e => (false, handle_error fs "cannot access" pathandname e st)
  | .ok _ => (true, st)

/-- `is_dir()`: stat the path and test `S_ISDIR`; the C reports the failure
with the arguments `("No File Found", "is_dir")`. -/
def is_dir (fs : FS) (pathandname : String) (st : St) : Bool × St :=
  match fs.lstat pathandname with
  | .error e => (false, handle_error fs "No File Found" "is_dir" e st)
  | .ok sb => (sb.ftype == FType.dir, st)

/-- `ftype_to_str()`: one-character type indicator for `-l`. -/
def ftype_to_str (t : FType) : String :=
  if t == FType.dir then "d"
  else if t == FType.reg then "-"
  else if t == FType.lnk then "l"
  else "?"

/-- One `PRINT_PERM_CHAR` step: the character if the mode bit is set, `-`
otherwise. -/
def perm_char (mode : Nat) (bit : Nat) (ch : String) : String :=
  if mode.testBit bit then ch else "-"

/-- The nine `PRINT_PERM_CHAR` calls of `list_file`, owner/group/other ×
read/write/execute. -/
def perm_string (mode : Nat) : String :=
  perm_char mode 8 "r" ++ perm_char mode 7 "w" ++ perm_char mode 6 "x" ++
  perm_char mode 5 "r" ++ perm_char mode 4 "w" ++ perm_char mode 3 "x" ++
  perm_char mode 2 "r" ++ perm_char mode 1 "w" ++ perm_char mode 0 "x"

/-- Exact fraction standing in for the C `double human_size`; the value is
`num / den` with `den` a positive power of 1024. -/
structure Frac where
  num : Int
  den : Int
deriving DecidableEq

/-- One `human_size /= 1024` step, kept exact. -/
def frac_div_1024 (f : Frac) : Frac := ⟨f.num, f.den * 1024⟩

/-- The loop guard `human_size >= 1024`, kept exact (`den > 0`). -/
def frac_ge_1024 (f : Frac) : Bool := 1024 * f.den ≤ f.num

/-- The unit table of `format_size_human`. -/
def size_units : List String := ["B", "K", "M", "G", "T", "P", "E"]

/-- The `while (human_size >= 1024 && unit_index < 6)` loop.  The guard
`unit_index < 6` bounds the iteration count by 6, so fuel 6 makes the model
total; callers pass 6. -/
def human_loop : Nat → Frac → Nat → Frac × Nat
  | 0, f, idx => (f, idx)
  | fuel + 1, f, idx =>
    if frac_ge_1024 f ∧ idx < 6 then
      human_loop fuel (frac_div_1024 f) (idx + 1)
    else
      (f, idx)

/-- Round `p / q` (with `q > 0`) to the nearest integer, ties to even: the
rounding `%.1f` applies to the exactly-represented quotient. -/
def round_half_even (p q : Int) : Int :=
  let f := p / q
  let r := p % q
  if 2 * r < q then f
  else if q < 2 * r then f + 1
  else if f % 2 = 0 then f else f + 1

/-- Render a nonnegative fraction with one decimal place: `%.1f`. -/
def format_fix1 (f : Frac) : String :=
  let r := round_half_even (10 * f.num) f.den
  toString (r / 10) ++ "." ++ toString (r % 10)

/-- `format_size_human()`: repeated division by 1024 through B,K,M,G,T,P,E;
a bare `%lld` integer while still in the byte range (`unit_index == 0`),
`%.1f` plus the unit letter afterwards. -/
def format_size_human (size : Int) : String :=
  let p := human_loop 6 ⟨size, 1⟩ 0
  if p.2 = 0 then toString size
  else format_fix1 p.1 ++ (size_units.getD p.2 "")

/-- The branch logic of `date_string()`: a future mtime or one at least
31,556,952 seconds in the past selects the `month day year` format, any
other past mtime the `month day hour:minute` format.  The returned string is
the format passed to `strftime`. -/
def date_format (now mtime : Int) : String :=
  if now < mtime then "%b %e %Y"
  else if now - mtime < 31556952 then "%b %e %H:%M"
  else "%b %e %Y"

/-- `date_string()`: render the mtime with the selected format via the
external `strftime`/`localtime`. -/
def date_string (fs : FS) (mtime : Int) : String :=
  fs.strftime (date_format fs.now mtime) mtime

/-- The owner column of the `-l` line: `%-8s` with the resolved name when
`uname_for_uid` succeeds, otherwise `%-8d` with the numeric id. -/
def long_owner_str (fs : FS) (uid : Nat) : String :=
  match fs.getpwuid uid with
  | some owner => " " ++ pad_right 8 owner
  | none => " " ++ pad_right 8 (toString uid)

/-- The group column of the `-l` line: `%-8s` with the resolved name when
`group_for_gid` succeeds, otherwise `%-8d` with the numeric id. -/
def long_group_str (fs : FS) (gid : Nat) : String :=
  match fs.getgrgid gid with
  | some grp => " " ++ pad_right 8 grp
  | none => " " ++ pad_right 8 (toString gid)

/-- The size column of the `-l` line: `%5s` of `format_size_human` under
`-h`, otherwise the exact byte count as `%8lld`. -/
def size_field (g : Globals) (size : Int) : String :=
  if g.human_readable then " " ++ pad_left 5 (format_size_human size)
  else " " ++ pad_left 8 (toString size)

/-- The trailing name part of the `-l` line: `name -> target` (truncated by
the 1024-byte `readlink` buffer) or `name -> ?` for symlinks, otherwise the
name with a trailing `/` for directories other than `.` and `..`. -/
def long_name_field (fs : FS) (sb : FileStat) (pathandname name : String) : String :=
  if sb.ftype == FType.lnk then
    match fs.readlink pathandname with
    | some target => " " ++ name ++ " -> " ++ c_truncate target 1023
    | none => " " ++ name ++ " -> ?"
  else
    " " ++ name ++
      (if sb.ftype == FType.dir && !name_is_self_ref name then "/" else "")

/-- One full `-l` output line, assembled in the printf order of
`list_file`: type char, nine permission chars, ` %ld` link count, owner and
group columns, size column, ` %s` date, name part. -/
def long_line (fs : FS) (g : Globals) (sb : FileStat) (pathandname name : String) : String :=
  ftype_to_str sb.ftype ++ perm_string sb.perm ++
  " " ++ toString sb.nlink ++
  long_owner_str fs sb.uid ++ long_group_str fs sb.gid ++
  size_field g sb.size ++
  " " ++ date_string fs sb.mtime ++
  long_name_field fs sb pathandname name

/-- The `err_code` updates of the `-l` branch: each failed owner or group
name lookup ORs `(1 << 6) | (1 << 5)` into the accumulator. -/
def name_lookup_err (fs : FS) (sb : FileStat) (err : Nat) : Nat :=
  let err :=
    if (fs.getpwuid sb.uid).isNone then err ||| ((1 <<< 6) ||| (1 <<< 5)) else err
  if (fs.getgrgid sb.gid).isNone then err ||| ((1 <<< 6) ||| (1 <<< 5)) else err

/-- `list_file()`: in count-only mode just increment `file_count`; in long
mode stat the path (reporting a failure via `handle_error`) and print one
assembled line, recording name-lookup failures in `err_code`; in bare mode
print the name, with a trailing `/` for directories other than `.`/`..`,
after `test_file`/`is_dir` re-stat the path. -/
def list_file (fs : FS) (g : Globals) (pathandname name : String) (list_long : Bool) (st : St) : St :=
  if g.count_only then
    { st with file_count := st.file_count + 1 }
  else if list_long then
    match fs.lstat pathandname with
    | .error e => handle_error fs "cannot access" pathandname e st
    | .ok sb =>
      { st with
        out := st.out ++ [long_line fs g sb pathandname name]
        err_code := name_lookup_err fs sb st.err_code }
  else
    match test_file fs pathandname st with
    | (false, st) => st
    | (true, st) =>
      match is_dir fs pathandname st with
      | (d, st) =>
        { st with
          out := st.out ++
            [name ++ (if d && !name_is_self_ref name then "/" else "")] }

/-- The `readdir` loop of `list_dir()`: filter hidden entries, build
`fullpath` into the 1024-byte buffer, list each entry, and under `-R`
collect the subdirectory paths (skipping `.`/`..`) into the
1024-slot × 256-byte `subdir_list` buffer. -/
def dir_scan (fs : FS) (g : Globals) (dirname : String) (list_long list_all recursive : Bool) :
    List String → St → List String → St × List String
  | [], st, subs => (st, subs)
  | ename :: rest, st, subs =>
    if !list_all && first_char_dot ename then
      dir_scan fs g dirname list_long list_all recursive rest st subs
    else
      let fullpath := c_truncate (dirname ++ "/" ++ ename) 1023
      let st := list_file fs g fullpath ename list_long st
      if recursive && !name_is_self_ref ename then
        match fs.lstat fullpath with
        | .ok sb =>
          if sb.ftype == FType.dir then
            if subs.length < 1024 then
              dir_scan fs g dirname list_long list_all recursive rest st
                (subs ++ [c_truncate fullpath 255])
            else
              dir_scan fs g dirname list_long list_all recursive rest st subs
          else
            dir_scan fs g dirname list_long list_all recursive rest st subs
        | .error _ =>
          dir_scan fs g dirname list_long list_all recursive rest st subs
      else
        dir_scan fs g dirname list_long list_all recursive rest st subs

/-- The deferred-recursion loop at the end of `list_dir()`: for each stored
subdirectory print a blank separator line and descend via the supplied
recursion (`list_dir` one fuel level down). -/
def walk_subdirs (descend : String → St → St) : List String → St → St
  | [], st => st
  | sub :: rest, st =>
    walk_subdirs descend rest (descend sub { st with out := st.out ++ [""] })

/-- `list_dir()`: under `-R` print the `dirname:` header first; open the
directory (reporting a failure via `handle_error` and returning); run the
`readdir` loop; then, under `-R` with stored subdirectories, recurse into
each with the same flags.  The structural `fuel` argument drives the
recursion; with fuel 0 the model returns the state unchanged, so theorems
supply fuel at least the tree depth. -/
def list_dir (fs : FS) (g : Globals) :
    Nat → String → Bool → Bool → Bool → St → St
  | 0, _, _, _, _, st => st
  | fuel + 1, dirname, list_long, list_all, recursive, st =>
    let st := if recursive then { st with out := st.out ++ [dirname ++ ":"] } else st
    match fs.opendir dirname with
    | .error e => handle_error fs "Error opening directory" dirname e st
    | .ok entries =>
      match dir_scan fs g dirname list_long list_all recursive entries st [] with
      | (st, subs) =>
        if recursive && !subs.isEmpty then
          walk_subdirs
            (fun sub st => list_dir fs g fuel sub list_long list_all recursive st)
            subs st
        else st

/-- The argument loop of `main()`: for each target, `test_file` (skipping
the target on failure); a directory target gets a `arg:` header when
several targets were given, is delegated to `list_dir`, and is followed by
a blank line when more targets remain; any other target is listed directly
via `list_file`. -/
def process_args (fs : FS) (g : Globals) (fuel : Nat) (multi : Bool)
    (list_long list_all recursive : Bool) : List String → St → St
  | [], st => st
  | arg :: rest, st =>
    match test_file fs arg st with
    | (false, st) => process_args fs g fuel multi list_long list_all recursive rest st
    | (true, st) =>
      match is_dir fs arg st with
      | (true, st) =>
        let st := if multi then { st with out := st.out ++ [arg ++ ":"] } else st
        let st := list_dir fs g fuel arg list_long list_all recursive st
        let st := if rest.isEmpty then st else { st with out := st.out ++ [""] }
        process_args fs g fuel multi list_long list_all recursive rest st
      | (false, st) =>
        process_args fs g fuel multi list_long list_all recursive rest
          (list_file fs g arg arg list_long st)

/-- `main()` after option parsing: with no path arguments list `.` (with an
extra `.:` header under `-R`); otherwise run the argument loop with the
multiple-targets flag `argc - optind > 1`; finally print the accumulated
count under `-n`.  The exit status of the process is `err_code` of the
returned state. -/
def ls_main (fs : FS) (g : Globals) (fuel : Nat) (args : List String)
    (list_long list_all recursive : Bool) : St :=
  let st := init_st
  let st :=
    if args.isEmpty then
      let st := if recursive then { st with out := st.out ++ [".:"] } else st
      list_dir fs g fuel "." list_long list_all recursive st
    else
      process_args fs g fuel (decide (1 < args.length)) list_long list_all recursive args st
  if g.count_only then { st with out := st.out ++ [toString st.file_count] } else st

/-
Concrete fixtures used by closed theorems and witnesses.
-/

/-- A plain regular file's metadata (mode 0644, 100 bytes). -/
def reg_stat : FileStat := ⟨FType.reg, 420, 1, 1000, 1000, 100, 0⟩

/-- A plain directory's metadata (mode 0755). -/
def dir_stat : FileStat := ⟨FType.dir, 493, 2, 1000, 1000, 4096, 0⟩

/-- The tree `root/{a.txt, sub/{b.txt}}` with working name lookups. -/
def fs_tree : FS :=
  { lstat := fun p =>
      if p = "root" then .ok dir_stat
      else if p = "root/a.txt" then .ok reg_stat
      else if p = "root/sub" then .ok dir_stat
      else if p = "root/sub/b.txt" then .ok reg_stat
      else .error .enoent
    opendir := fun p =>
      if p = "root" then .ok ["a.txt", "sub"]
      else if p = "root/sub" then .ok ["b.txt"]
      else .error .eother
    readlink := fun _ => none
    getpwuid := fun _ => some "alice"
    getgrgid := fun _ => some "staff"
    strftime := fun f _ => f
    strerror := fun _ => "E"
    now := 0 }

/-- An empty current directory; every stat fails with `ENOENT`. -/
def fs_dot : FS :=
  { lstat := fun _ => .error .enoent
    opendir := fun p => if p = "." then .ok [] else .error .eother
    readlink := fun _ => none
    getpwuid := fun _ => none
    getgrgid := fun _ => none
    strftime := fun f _ => f
    strerror := fun _ => "E"
    now := 0 }

/-- A single regular file `f` owned by uid 1234 whose owner-name lookup
fails while the group lookup succeeds. -/
def fs_name_fail : FS :=
  { lstat := fun p => if p = "f" then .ok { reg_stat with uid := 1234 } else .error .enoent
    opendir := fun _ => .error .eother
    readlink := fun _ => none
    getpwuid := fun _ => none
    getgrgid := fun _ => some "staff"
    strftime := fun f _ => f
    strerror := fun _ => "E"
    now := 0 }

/-- A single regular file `f` owned by uid 1234 and gid 4321 for which
both the owner-name and the group-name lookups fail. -/
def fs_both_fail : FS :=
  { lstat := fun p =>
      if p = "f" then .ok { reg_stat with uid := 1234, gid := 4321 } else .error .enoent
    opendir := fun _ => .error .eother
    readlink := fun _ => none
    getpwuid := fun _ => none
    getgrgid := fun _ => none
    strftime := fun f _ => f
    strerror := fun _ => "E"
    now := 0 }

/-- A directory `d` holding one entry `x` whose own stat fails (for
example a directory readable but not searchable). -/
def fs_scan_fail : FS :=
  { lstat := fun p => if p = "d" then .ok dir_stat else .error .eother
    opendir := fun p => if p = "d" then .ok ["x"] else .error .eother
    readlink := fun _ => none
    getpwuid := fun _ => some "alice"
    getgrgid := fun _ => some "staff"
    strftime := fun f _ => f
    strerror := fun _ => "E"
    now := 0 }

/-- A directory `d` that exists but cannot be opened (`EACCES`). -/
def fs_open_fail : FS :=
  { lstat := fun p => if p = "d" then .ok dir_stat else .error .enoent
    opendir := fun _ => .error .eacces
    readlink := fun _ => none
    getpwuid := fun _ => some "alice"
    getgrgid := fun _ => some "staff"
    strftime := fun f _ => f
    strerror := fun _ => "E"
    now := 0 }

/-- A 260-character file name, longer than a `subdir_list` slot. -/
def long_name : String := String.mk (List.replicate 260 'a')

/-- A directory `d` holding one subdirectory whose full path exceeds the
255 characters a `subdir_list` slot can keep. -/
def fs_long_sub : FS :=
  { lstat := fun p =>
      if p = "d" ∨ p = "d/" ++ long_name ∨ p = c_truncate ("d/" ++ long_name) 255 then
        .ok dir_stat
      else .error .enoent
    opendir := fun p =>
      if p = "d" then .ok [long_name]
      else if p = c_truncate ("d/" ++ long_name) 255 then .ok []
      else .error .eother
    readlink := fun _ => none
    getpwuid := fun _ => some "alice"
    getgrgid := fun _ => some "staff"
    strftime := fun f _ => f
    strerror := fun _ => "E"
    now := 0 }

/-
Exit-status accumulator algebra: every mutation of `err_code` in the
program is a bitwise OR, so set bits persist.  `err_le a b` says every bit
of `a` is a bit of `b`.
-/

/-- Bit containment between two accumulator values. -/
def err_le (a b : Nat) : Prop :=
  ∀ i, a.testBit i = true → b.testBit i = true

/-- The number of entries of a directory that survive the hidden filter
`!list_all && d_name[0] == '.'`. -/
def count_visible (la : Bool) : List String → Nat
  | [] => 0
  | e :: rest => (if !la && first_char_dot e then 0 else 1) + count_visible la rest

theorem err_le_refl (a : Nat) : err_le a a := fun _ h => h

theorem err_le_trans {a b c : Nat} (h1 : err_le a b) (h2 : err_le b c) : err_le a c :=
  fun i h => h2 i (h1 i h)

theorem err_le_or (a d : Nat) : err_le a (a ||| d) := by
  intro i h
  simp only [Nat.testBit_lor, h, Bool.true_or]

theorem err_le_handle_error (fs : FS) (w f : String) (e : Errno) (st : St) :
    err_le st.err_code (handle_error fs w f e st).err_code :=
  err_le_trans (err_le_or st.err_code 64) (err_le_or (st.err_code ||| 64) (cause_bit e))

theorem err_le_test_file (fs : FS) (p : String) (st : St) :
    err_le st.err_code (test_file fs p st).2.err_code := by
  unfold test_file
  split
  · exact err_le_handle_error fs "cannot access" p _ st
  · exact err_le_refl _

theorem err_le_is_dir (fs : FS) (p : String) (st : St) :
    err_le st.err_code (is_dir fs p st).2.err_code := by
  unfold is_dir
  split
  · exact err_le_handle_error fs "No File Found" "is_dir" _ st
  · exact err_le_refl _

theorem err_le_name_lookup (fs : FS) (sb : FileStat) (err : Nat) :
    err_le err (name_lookup_err fs sb err) := by
  simp only [name_lookup_err]
  split
  · split
    · exact err_le_trans (err_le_or _ _) (err_le_or _ _)
    · exact err_le_or _ _
  · split
    · exact err_le_or _ _
    · exact err_le_refl _

theorem err_le_list_file (fs : FS) (g : Globals) (p n : String) (ll : Bool) (st : St) :
    err_le st.err_code (list_file fs g p n ll st).err_code := by
  unfold list_file
  split
  · exact err_le_refl _
  split
  · split
    · exact err_le_handle_error fs "cannot access" p _ st
    · exact err_le_name_lookup fs _ st.err_code
  · split
    · next st' heq =>
      have h := err_le_test_file fs p st
      rw [heq] at h
      exact h
    · next st' heq =>
      have h1 := err_le_test_file fs p st
      rw [heq] at h1
      rcases h2 : is_dir fs p st' with ⟨d, st''⟩
      have h3 := err_le_is_dir fs p st'
      rw [h2] at h3
      exact err_le_trans h1 h3

theorem err_le_dir_scan (fs : FS) (g : Globals) (dn : String) (ll la rc : Bool) :
    ∀ (entries : List String) (st : St) (subs : List String),
      err_le st.err_code (dir_scan fs g dn ll la rc entries st subs).1.err_code := by
  intro entries
  induction entries with
  | nil => intro st subs; exact err_le_refl _
  | cons e rest ih =>
    intro st subs
    simp only [dir_scan]
    split
    · exact ih st subs
    · split
      · split
        · split
          · split
            · exact err_le_trans (err_le_list_file fs g _ e ll st) (ih _ _)
            · exact err_le_trans (err_le_list_file fs g _ e ll st) (ih _ _)
          · exact err_le_trans (err_le_list_file fs g _ e ll st) (ih _ _)
        · exact err_le_trans (err_le_list_file fs g _ e ll st) (ih _ _)
      · exact err_le_trans (err_le_list_file fs g _ e ll st) (ih _ _)

theorem err_le_walk_subdirs (descend : String → St → St)
    (h : ∀ s st, err_le st.err_code (descend s st).err_code) :
    ∀ (subs : List String) (st : St),
      err_le st.err_code (walk_subdirs descend subs st).err_code := by
  intro subs
  induction subs with
  | nil => intro st; exact err_le_refl _
  | cons s rest ih =>
    intro st
    simp only [walk_subdirs]
    exact err_le_trans (h s { st with out := st.out ++ [""] })
      (ih (descend s { st with out := st.out ++ [""] }))

theorem err_le_list_dir (fs : FS) (g : Globals) :
    ∀ (fuel : Nat) (dn : String) (ll la rc : Bool) (st : St),
      err_le st.err_code (list_dir fs g fuel dn ll la rc st).err_code := by
  intro fuel
  induction fuel with
  | zero => intro dn ll la rc st; exact err_le_refl _
  | succ fuel ih =>
    intro dn ll la rc st
    simp only [list_dir]
    split
    · next heq =>
      refine err_le_trans ?_ (err_le_handle_error fs "Error opening directory" dn _ _)
      split
      · exact err_le_refl _
      · exact err_le_refl _
    · next entries heq =>
      rcases h2 : dir_scan fs g dn ll la rc entries
          (if rc = true then { st with out := st.out ++ [dn ++ ":"] } else st) [] with ⟨st', subs⟩
      have h3 := err_le_dir_scan fs g dn ll la rc entries
        (if rc = true then { st with out := st.out ++ [dn ++ ":"] } else st) []
      rw [h2] at h3
      have h4 : err_le st.err_code st'.err_code := by
        refine err_le_trans ?_ h3
        split
        · exact err_le_refl _
        · exact err_le_refl _
      split
      · exact err_le_trans h4 (err_le_walk_subdirs _ (fun s st => ih s ll la rc st) subs st')
      · exact h4

theorem err_le_process_args (fs : FS) (g : Globals) (fuel : Nat) (multi ll la rc : Bool) :
    ∀ (args : List String) (st : St),
      err_le st.err_code (process_args fs g fuel multi ll la rc args st).err_code := by
  intro args
  induction args with
  | nil => intro st; exact err_le_refl _
  | cons arg rest ih =>
    intro st
    simp only [process_args]
    split
    · next st' heq =>
      have h := err_le_test_file fs arg st
      rw [heq] at h
      exact err_le_trans h (ih st')
    · next st' heq =>
      have h1 := err_le_test_file fs arg st
      rw [heq] at h1
      split
      · next st'' heq2 =>
        have h2 := err_le_is_dir fs arg st'
        rw [heq2] at h2
        set sth := (if multi = true then { st'' with out := st''.out ++ [arg ++ ":"] } else st'') with hsth
        set stl := list_dir fs g fuel arg ll la rc sth with hstl
        have h4 : err_le st''.err_code stl.err_code := by
          rw [hstl]
          refine err_le_trans ?_ (err_le_list_dir fs g fuel arg ll la rc sth)
          rw [hsth]
          split
          · exact err_le_refl _
          · exact err_le_refl _
        refine err_le_trans h1 (err_le_trans h2 (err_le_trans h4 ?_))
        split
        · exact ih stl
        · exact ih { stl with out := stl.out ++ [""] }
      · next st'' heq2 =>
        have h2 := err_le_is_dir fs arg st'
        rw [heq2] at h2
        exact err_le_trans h1
          (err_le_trans h2 (err_le_trans (err_le_list_file fs g arg arg ll st'') (ih _)))

/-
Count-mode / bare-mode correspondence on one directory scan.
-/

theorem dir_scan_count (fs : FS) (hr : Bool) (dn : String) (ll la : Bool) :
    ∀ (entries : List String) (st : St) (subs : List String),
      dir_scan fs ⟨true, hr⟩ dn ll la false entries st subs =
        ({ st with file_count := st.file_count + count_visible la entries }, subs) := by
  intro entries
  induction entries with
  | nil => intro st subs; rfl
  | cons e rest ih =>
    intro st subs
    by_cases h : (!la && first_char_dot e) = true
    · simp only [dir_scan, h, if_true]
      rw [ih st subs]
      simp [count_visible, h]
    · simp only [dir_scan, h, if_false, Bool.false_and, Bool.false_eq_true]
      rw [show list_file fs ⟨true, hr⟩ (c_truncate (dn ++ "/" ++ e) 1023) e ll st =
        { st with file_count := st.file_count + 1 } from rfl]
      rw [ih _ subs]
      simp [count_visible, h, Nat.add_assoc]

theorem dir_scan_bare (fs : FS) (hr : Bool) (dn : String) (la : Bool) :
    ∀ (entries : List String) (st : St) (subs : List String),
      (∀ e ∈ entries, (!la && first_char_dot e) = false →
        ∃ sb, fs.lstat (c_truncate (dn ++ "/" ++ e) 1023) = .ok sb) →
      ∃ lines,
        dir_scan fs ⟨false, hr⟩ dn false la false entries st subs =
          ({ st with out := st.out ++ lines }, subs) ∧
        lines.length = count_visible la entries := by
  intro entries
  induction entries with
  | nil =>
    intro st subs _
    exact ⟨[], by simp [dir_scan], rfl⟩
  | cons e rest ih =>
    intro st subs hstats
    by_cases h : (!la && first_char_dot e) = true
    · obtain ⟨lines, heq, hlen⟩ :=
        ih st subs (fun x hx hv => hstats x (List.mem_cons_of_mem e hx) hv)
      refine ⟨lines, ?_, ?_⟩
      · simp only [dir_scan, h, if_true]
        exact heq
      · simp [count_visible, h, hlen]
    · obtain ⟨sb, hsb⟩ := hstats e (List.mem_cons_self e rest) (by simpa using h)
      have hlf : list_file fs ⟨false, hr⟩ (c_truncate (dn ++ "/" ++ e) 1023) e false st =
          { st with out := st.out ++
            [e ++ (if (sb.ftype == FType.dir) && !name_is_self_ref e then "/" else "")] } := by
        simp [list_file, test_file, is_dir, hsb]
      obtain ⟨lines, heq, hlen⟩ :=
        ih { st with out := st.out ++
              [e ++ (if (sb.ftype == FType.dir) && !name_is_self_ref e then "/" else "")] }
          subs (fun x hx hv => hstats x (List.mem_cons_of_mem e hx) hv)
      refine ⟨(e ++ (if (sb.ftype == FType.dir) && !name_is_self_ref e then "/" else "")) :: lines, ?_, ?_⟩
      · simp only [dir_scan, h, if_false, Bool.false_and, Bool.false_eq_true]
        rw [hlf, heq]
        simp
      · simp only [count_visible, h, List.length_cons, hlen, Bool.false_eq_true, if_false]
        omega

theorem list_dir_nonrec (fs : FS) (g : Globals) (fuel : Nat) (dn : String) (ll la : Bool)
    (st : St) (entries : List String) (hod : fs.opendir dn = .ok entries) :
    list_dir fs g (fuel + 1) dn ll la false st =
      (dir_scan fs g dn ll la false entries st []).1 := by
  simp only [list_dir, hod]
  rcases hd : dir_scan fs g dn ll la false entries st [] with ⟨st', subs⟩
  simp [hd]

theorem process_args_single_dir (fs : FS) (g : Globals) (fuel : Nat) (multi ll la rc : Bool)
    (d : String) (sbd : FileStat) (st : St)
    (hd : fs.lstat d = .ok sbd) (hdir : sbd.ftype = FType.dir) :
    process_args fs g fuel multi ll la rc [d] st =
      list_dir fs g fuel d ll la rc
        (if multi = true then { st with out := st.out ++ [d ++ ":"] } else st) := by
  simp [process_args, test_file, is_dir, hd, hdir]

/-
Missing-target bookkeeping used for the not-found claim.
-/

theorem process_args_enoent_head (fs : FS) (g : Globals) (fuel : Nat)
    (multi ll la rc : Bool) (t : String) (rest : List String) (st : St)
    (h : fs.lstat t = .error .enoent) :
    process_args fs g fuel multi ll la rc (t :: rest) st =
      process_args fs g fuel multi ll la rc rest
        (handle_error fs "cannot access" t .enoent st) := by
  simp [process_args, test_file, h]

theorem handle_error_enoent_bit3 (fs : FS) (w f : String) (st : St) :
    (handle_error fs w f .enoent st).err_code.testBit 3 = true := by
  simp only [handle_error, cause_bit, Nat.testBit_lor]
  have h8 : Nat.testBit 8 3 = true := by decide
  simp [h8]

theorem process_args_cons_exists (fs : FS) (g : Globals) (fuel : Nat)
    (multi ll la rc : Bool) (a : String) (rest : List String) (st : St) :
    ∃ st', process_args fs g fuel multi ll la rc (a :: rest) st =
      process_args fs g fuel multi ll la rc rest st' := by
  simp only [process_args]
  split
  · next st' heq => exact ⟨st', rfl⟩
  · next st' heq =>
    split
    · next st'' heq2 => exact ⟨_, rfl⟩
    · next st'' heq2 => exact ⟨_, rfl⟩

theorem process_args_mem_enoent (fs : FS) (g : Globals) (fuel : Nat)
    (multi ll la rc : Bool) (t : String) (h : fs.lstat t = .error .enoent) :
    ∀ (args : List String) (st : St), t ∈ args →
      (process_args fs g fuel multi ll la rc args st).err_code.testBit 3 = true := by
  intro args
  induction args with
  | nil => intro st hm; cases hm
  | cons a rest ih =>
    intro st hm
    rcases List.mem_cons.mp hm with rfl | hm'
    · rw [process_args_enoent_head fs g fuel multi ll la rc t rest st h]
      exact err_le_process_args fs g fuel multi ll la rc rest _ 3
        (handle_error_enoent_bit3 fs "cannot access" t st)
    · obtain ⟨st', hst⟩ := process_args_cons_exists fs g fuel multi ll la rc a rest st
      rw [hst]
      exact ih st' hm'

/-
Claim theorems.
-/

/-- C1 counterexample: a pure owner-name lookup failure on the long listing
of `f` leaves `err_code = 96 = 64 ||| 32`, exactly the value
`handle_error` produces for an unclassified path-access failure; bit 5
(value 32) is the "other" path-access cause bit, so the name-lookup
indication is not a dedicated bit distinct from the path-access cause bits,
and a path-access cause bit is set. -/
theorem C1_counterexample :
    (list_file fs_name_fail ⟨false, false⟩ "f" "f" true init_st).err_code = 96 ∧
    (handle_error fs_name_fail "cannot access" "p" Errno.eother init_st).err_code = 96 ∧
    Nat.testBit 96 5 = true ∧ cause_bit Errno.eother = 32 ∧ Nat.testBit 32 5 = true := by
  decide

/-- C1 as amended: whenever the owner-name lookup, the group-name lookup,
or both fail during a long-format listing, the line is still printed; the
owner column falls back to `%-8d` of the numeric uid when the owner lookup
fails and the group column to `%-8d` of the numeric gid when the group
lookup fails; and in every one of these cases `err_code` gains exactly
`(1 << 6) | (1 << 5) = 96 = 64 ||| 32` — the general-error bit together
with the value of the "other" path-access cause bit
(`cause_bit .eother = 32`), not a dedicated distinct bit.  The exact
equality `st.err_code ||| 96`, holding also when only the group branch
fires, pins the bits set at main.c:276 to the same composite value. -/
theorem C1_theorem (fs : FS) (hr : Bool) (p n : String) (st : St) (sb : FileStat)
    (hstat : fs.lstat p = .ok sb)
    (hfail : fs.getpwuid sb.uid = none ∨ fs.getgrgid sb.gid = none) :
    (list_file fs ⟨false, hr⟩ p n true st).out = st.out ++ [long_line fs ⟨false, hr⟩ sb p n] ∧
    (fs.getpwuid sb.uid = none →
      long_owner_str fs sb.uid = " " ++ pad_right 8 (toString sb.uid)) ∧
    (fs.getgrgid sb.gid = none →
      long_group_str fs sb.gid = " " ++ pad_right 8 (toString sb.gid)) ∧
    (list_file fs ⟨false, hr⟩ p n true st).err_code = st.err_code ||| 96 ∧
    ((1 <<< 6) ||| (1 <<< 5) : Nat) = 96 ∧
    (96 : Nat) = 64 ||| 32 ∧ cause_bit .eother = 32 := by
  have hred : list_file fs ⟨false, hr⟩ p n true st =
      { st with out := st.out ++ [long_line fs ⟨false, hr⟩ sb p n],
                err_code := name_lookup_err fs sb st.err_code } := by
    simp [list_file, hstat]
  have h96 : ((1 <<< 6) ||| (1 <<< 5) : Nat) = 96 := by decide
  refine ⟨?_, ?_, ?_, ?_, by decide, by decide, rfl⟩
  · rw [hred]
  · intro huid
    simp [long_owner_str, huid]
  · intro hgid
    simp [long_group_str, hgid]
  · rw [hred]
    show name_lookup_err fs sb st.err_code = st.err_code ||| 96
    cases hu : fs.getpwuid sb.uid with
    | none =>
      simp only [name_lookup_err, hu, Option.isNone_none, if_true, h96]
      cases hg : fs.getgrgid sb.gid with
      | none =>
        simp only [Option.isNone_none, if_true]
        rw [Nat.lor_assoc]
        norm_num
      | some gname => simp [Option.isNone]
    | some oname =>
      cases hg : fs.getgrgid sb.gid with
      | none =>
        simp only [name_lookup_err, hu, hg, Option.isNone_none, Option.isNone_some,
          if_true, h96]
        simp [Option.isNone]
      | some gname =>
        rcases hfail with h | h
        · rw [hu] at h
          exact absurd h (by simp)
        · rw [hg] at h
          exact absurd h (by simp)

/-- C1 witness: the theorem applied to the concrete filesystem
`fs_both_fail`, where both the owner lookup for uid 1234 and the group
lookup for gid 4321 fail, so every conjunct fires non-vacuously. -/
theorem C1_witness :
    (list_file fs_both_fail ⟨false, false⟩ "f" "f" true init_st).out =
      init_st.out ++
        [long_line fs_both_fail ⟨false, false⟩
          { reg_stat with uid := 1234, gid := 4321 } "f" "f"] ∧
    (fs_both_fail.getpwuid ({ reg_stat with uid := 1234, gid := 4321 } : FileStat).uid = none →
      long_owner_str fs_both_fail ({ reg_stat with uid := 1234, gid := 4321 } : FileStat).uid =
        " " ++ pad_right 8 (toString ({ reg_stat with uid := 1234, gid := 4321 } : FileStat).uid)) ∧
    (fs_both_fail.getgrgid ({ reg_stat with uid := 1234, gid := 4321 } : FileStat).gid = none →
      long_group_str fs_both_fail ({ reg_stat with uid := 1234, gid := 4321 } : FileStat).gid =
        " " ++ pad_right 8 (toString ({ reg_stat with uid := 1234, gid := 4321 } : FileStat).gid)) ∧
    (list_file fs_both_fail ⟨false, false⟩ "f" "f" true init_st).err_code =
      init_st.err_code ||| 96 ∧
    ((1 <<< 6) ||| (1 <<< 5) : Nat) = 96 ∧
    (96 : Nat) = 64 ||| 32 ∧ cause_bit .eother = 32 :=
  C1_theorem fs_both_fail false "f" "f" init_st
    { reg_stat with uid := 1234, gid := 4321 } rfl (Or.inr rfl)

/-- C3 counterexample: in the byte range `format_size_human` prints a bare
integer with no `B` suffix, so 0 renders as `0`, not `0B`, and 1023 as
`1023`, not `1023B`. -/
theorem C3_counterexample :
    format_size_human 0 ≠ "0B" ∧ format_size_human 0 = "0" ∧
    format_size_human 1023 ≠ "1023B" ∧ format_size_human 1023 = "1023" := by
  decide

/-- C3 as amended: the human-readable renderer divides by 1024 through the
unit sequence B,K,M,G,T,P,E, printing a bare integer (no unit suffix)
while in the byte range and one decimal place plus the unit letter
afterwards: 0 → `0`, 1023 → `1023`, 1024 → `1.0K`, 1536 → `1.5K`,
1048576 → `1.0M`; in non-human mode the size column is always the exact
byte count rendered as a right-aligned integer. -/
theorem C3_theorem :
    format_size_human 0 = "0" ∧
    format_size_human 1023 = "1023" ∧
    format_size_human 1024 = "1.0K" ∧
    format_size_human 1536 = "1.5K" ∧
    format_size_human 1048576 = "1.0M" ∧
    (∀ (co : Bool) (size : Int),
      size_field ⟨co, false⟩ size = " " ++ pad_left 8 (toString size)) ∧
    size_units = ["B", "K", "M", "G", "T", "P", "E"] :=
  ⟨by decide, by decide, by decide, by decide, by decide, fun _ _ => rfl, rfl⟩

/-- C6 counterexample: a modification time exactly 31,556,952 seconds in
the past is not in the future and not more than one year in the past, yet
`date_string` selects the `month day year` format, contradicting the
claimed "exactly when" boundary. -/
theorem C6_counterexample :
    date_format 31556952 0 = "%b %e %Y" ∧
    ¬((31556952 : Int) < 0) ∧
    ¬((31556952 : Int) - 0 > 31556952) ∧
    "%b %e %Y" ≠ "%b %e %H:%M" := by
  decide

/-- C6 as amended: the long-format date renders as month-day-year exactly
when the timestamp is in the future or at least one year (31,556,952
seconds or more) in the past, and as month-day-hour:minute otherwise; in
particular 10 seconds in the future gives a year, 2 days (172,800 s) in
the past gives a clock time, and 400 days (34,560,000 s) in the past gives
a year. -/
theorem C6_theorem :
    (∀ now mtime : Int,
      (date_format now mtime = "%b %e %Y" ↔ (now < mtime ∨ 31556952 ≤ now - mtime))) ∧
    (∀ now mtime : Int,
      date_format now mtime = "%b %e %Y" ∨ date_format now mtime = "%b %e %H:%M") ∧
    (∀ now : Int, date_format now (now + 10) = "%b %e %Y") ∧
    (∀ now : Int, date_format now (now - 172800) = "%b %e %H:%M") ∧
    (∀ now : Int, date_format now (now - 34560000) = "%b %e %Y") := by
  refine ⟨?_, ?_, ?_, ?_, ?_⟩
  · intro now mtime
    unfold date_format
    split_ifs with h1 h2
    · exact iff_of_true rfl (Or.inl h1)
    · exact iff_of_false (by decide) (by omega)
    · exact iff_of_true rfl (Or.inr (by omega))
  · intro now mtime
    unfold date_format
    split_ifs with h1 h2
    · exact Or.inl rfl
    · exact Or.inr rfl
    · exact Or.inl rfl
  · intro now
    unfold date_format
    split_ifs with h1 h2
    · rfl
    · omega
    · rfl
  · intro now
    unfold date_format
    split_ifs with h1 h2
    · omega
    · rfl
    · omega
  · intro now
    unfold date_format
    split_ifs with h1 h2
    · rfl
    · omega
    · rfl

theorem ls_main_single_dir (fs : FS) (g : Globals) (fuel : Nat) (d : String) (sbd : FileStat)
    (entries : List String) (ll la : Bool)
    (hd : fs.lstat d = .ok sbd) (hdir : sbd.ftype = FType.dir)
    (hod : fs.opendir d = .ok entries) :
    ls_main fs g (fuel + 1) [d] ll la false =
      (if g.count_only = true then
        { (dir_scan fs g d ll la false entries init_st []).1 with
            out := (dir_scan fs g d ll la false entries init_st []).1.out ++
              [toString (dir_scan fs g d ll la false entries init_st []).1.file_count] }
      else (dir_scan fs g d ll la false entries init_st []).1) := by
  simp only [ls_main, List.isEmpty_cons, Bool.false_eq_true, if_false]
  rw [show (decide (1 < ([d] : List String).length)) = false from rfl]
  rw [process_args_single_dir fs g (fuel + 1) false ll la false d sbd init_st hd hdir]
  simp only [Bool.false_eq_true, if_false]
  rw [list_dir_nonrec fs g fuel d ll la init_st entries hod]

/-- C2 counterexample: the directory `d` holds one entry `x` whose own
stat fails; the count-only run prints the total 1 while the bare run
prints no listing line at all, so the printed total exceeds the bare-mode
line count. -/
theorem C2_counterexample :
    (ls_main fs_scan_fail ⟨true, false⟩ 1 ["d"] false false false).out = ["1"] ∧
    (ls_main fs_scan_fail ⟨true, false⟩ 1 ["d"] false false false).file_count = 1 ∧
    (ls_main fs_scan_fail ⟨false, false⟩ 1 ["d"] false false false).out = [] := by
  decide

/-- C2 as amended: for a count-only run over a single directory target
with recursion off, in which every visible entry's stat succeeds, the
printed total equals the number of output lines the same run produces in
non-count bare mode, and the count-only run prints no per-entry line —
its whole listing output is the single final total.  (An entry whose stat
fails is still counted but yields no bare-mode line, which is what the
counterexample exhibits.) -/
theorem C2_theorem (fs : FS) (hr hr2 la : Bool) (fuel : Nat) (d : String) (sbd : FileStat)
    (entries : List String)
    (hd : fs.lstat d = .ok sbd) (hdir : sbd.ftype = FType.dir)
    (hod : fs.opendir d = .ok entries)
    (hstats : ∀ e ∈ entries, (!la && first_char_dot e) = false →
      ∃ sb, fs.lstat (c_truncate (d ++ "/" ++ e) 1023) = .ok sb) :
    (ls_main fs ⟨true, hr⟩ (fuel + 1) [d] false la false).file_count =
      (ls_main fs ⟨false, hr2⟩ (fuel + 1) [d] false la false).out.length ∧
    (ls_main fs ⟨true, hr⟩ (fuel + 1) [d] false la false).out =
      [toString (ls_main fs ⟨true, hr⟩ (fuel + 1) [d] false la false).file_count] := by
  have hA := ls_main_single_dir fs ⟨true, hr⟩ fuel d sbd entries false la hd hdir hod
  have hB := ls_main_single_dir fs ⟨false, hr2⟩ fuel d sbd entries false la hd hdir hod
  rw [dir_scan_count fs hr d false la entries init_st []] at hA
  obtain ⟨lines, hb, hblen⟩ := dir_scan_bare fs hr2 d la entries init_st [] hstats
  rw [hb] at hB
  simp only [init_st] at hA hB
  rw [hA, hB]
  simp [hblen]

/-- C2 witness: the theorem applied to the tree fixture `fs_tree`, listing
`root` with two visible entries whose stats succeed. -/
theorem C2_witness :
    (ls_main fs_tree ⟨true, false⟩ 1 ["root"] false false false).file_count =
      (ls_main fs_tree ⟨false, false⟩ 1 ["root"] false false false).out.length ∧
    (ls_main fs_tree ⟨true, false⟩ 1 ["root"] false false false).out =
      [toString (ls_main fs_tree ⟨true, false⟩ 1 ["root"] false false false).file_count] :=
  C2_theorem fs_tree false false false 0 "root" dir_stat ["a.txt", "sub"] rfl rfl rfl
    (by
      intro e he hv
      fin_cases he
      · exact ⟨reg_stat, rfl⟩
      · exact ⟨dir_stat, rfl⟩)

/-- C4 counterexample: with recursion active, a directory whose stream
cannot be opened still produces one stdout line — its header, printed
before the open attempt — so the "no output lines for every
configuration" claim fails (the permission bit is recorded: 80 = 64+16). -/
theorem C4_counterexample :
    (list_dir fs_open_fail ⟨false, false⟩ 1 "d" false false true init_st).out = ["d:"] ∧
    (["d:"] : List String) ≠ ([] : List String) ∧
    (list_dir fs_open_fail ⟨false, false⟩ 1 "d" false false true init_st).err_code = 80 := by
  decide

/-- C4 as amended: when the directory stream cannot be opened the walk
records the failure through `handle_error` (general bit plus the
classified cause bit, one diagnostic) and returns; in non-recursive mode
it emits no stdout line for that directory, while in recursive mode it
emits exactly the already-printed header line and nothing else. -/
theorem C4_theorem (fs : FS) (g : Globals) (fuel : Nat) (dn : String) (ll la : Bool)
    (st : St) (e : Errno) (hod : fs.opendir dn = .error e) :
    list_dir fs g (fuel + 1) dn ll la false st =
      handle_error fs "Error opening directory" dn e st ∧
    (list_dir fs g (fuel + 1) dn ll la false st).out = st.out ∧
    (list_dir fs g (fuel + 1) dn ll la true st).out = st.out ++ [dn ++ ":"] ∧
    (list_dir fs g (fuel + 1) dn ll la true st).err_code =
      st.err_code ||| 64 ||| cause_bit e ∧
    (list_dir fs g (fuel + 1) dn ll la true st).diag =
      st.diag ++ ["ls: Error opening directory " ++ dn ++ ": " ++ fs.strerror e] := by
  have h1 : list_dir fs g (fuel + 1) dn ll la false st =
      handle_error fs "Error opening directory" dn e st := by
    simp [list_dir, hod]
  have h2 : list_dir fs g (fuel + 1) dn ll la true st =
      handle_error fs "Error opening directory" dn e
        { st with out := st.out ++ [dn ++ ":"] } := by
    simp [list_dir, hod]
  refine ⟨h1, ?_, ?_, ?_, ?_⟩
  · rw [h1]; rfl
  · rw [h2]; rfl
  · rw [h2]; rfl
  · rw [h2]; rfl

/-- C4 witness: the theorem applied to `fs_open_fail`, whose directory
`d` exists but cannot be opened (`EACCES`). -/
theorem C4_witness :
    list_dir fs_open_fail ⟨false, false⟩ 1 "d" false false false init_st =
      handle_error fs_open_fail "Error opening directory" "d" Errno.eacces init_st ∧
    (list_dir fs_open_fail ⟨false, false⟩ 1 "d" false false false init_st).out = init_st.out ∧
    (list_dir fs_open_fail ⟨false, false⟩ 1 "d" false false true init_st).out =
      init_st.out ++ ["d" ++ ":"] ∧
    (list_dir fs_open_fail ⟨false, false⟩ 1 "d" false false true init_st).err_code =
      init_st.err_code ||| 64 ||| cause_bit Errno.eacces ∧
    (list_dir fs_open_fail ⟨false, false⟩ 1 "d" false false true init_st).diag =
      init_st.diag ++
        ["ls: Error opening directory " ++ "d" ++ ": " ++ fs_open_fail.strerror Errno.eacces] :=
  C4_theorem fs_open_fail ⟨false, false⟩ 0 "d" false false init_st Errno.eacces rfl

theorem c_truncate_length_le (s : String) (n : Nat) : (c_truncate s n).length ≤ n := by
  simp only [c_truncate, String.length]
  simp [List.length_take]

/-- C5 counterexample: a subdirectory whose full path is 262 characters
long is stored truncated to the 255 characters a `subdir_list` slot holds,
so the walk recurses into (and prints a header for) a different, truncated
path — the claimed absence of any bound on path length fails. -/
theorem C5_counterexample :
    (list_dir fs_long_sub ⟨false, false⟩ 2 "d" false false true init_st).out =
      ["d:", long_name ++ "/", "", c_truncate ("d/" ++ long_name) 255 ++ ":"] ∧
    c_truncate ("d/" ++ long_name) 255 ≠ "d/" ++ long_name := by
  decide

/-- C5 as amended: after the direct-entry pass the walk recurses into the
discovered subdirectory entries (excluding `.` and `..`) in order, with a
blank separator line before each header and the same flags passed on, but
bounded by the fixed buffers of the original: at most the first 1024
subdirectories are kept, and each stored path is truncated to 255
characters. -/
theorem C5_theorem :
    (∀ (fs : FS) (g : Globals) (dn : String) (ll la rc : Bool) (entries : List String)
        (st : St) (subs : List String), subs.length ≤ 1024 →
        (dir_scan fs g dn ll la rc entries st subs).2.length ≤ 1024) ∧
    (∀ (fs : FS) (g : Globals) (dn : String) (ll la rc : Bool) (entries : List String)
        (st : St) (subs : List String), (∀ s ∈ subs, s.length ≤ 255) →
        ∀ s ∈ (dir_scan fs g dn ll la rc entries st subs).2, s.length ≤ 255) ∧
    (list_dir fs_tree ⟨false, false⟩ 2 "root" false false true init_st).out =
      ["root:", "a.txt", "sub/", "", "root/sub:", "b.txt"] := by
  refine ⟨?_, ?_, by decide⟩
  · intro fs g dn ll la rc entries
    induction entries with
    | nil => intro st subs h; simpa [dir_scan] using h
    | cons e rest ih =>
      intro st subs h
      simp only [dir_scan]
      split
      · exact ih st subs h
      · split
        · split
          · split
            · split
              · next hlt =>
                refine ih _ _ ?_
                simp only [List.length_append, List.length_cons, List.length_nil]
                omega
              · exact ih _ subs h
            · exact ih _ subs h
          · exact ih _ subs h
        · exact ih _ subs h
  · intro fs g dn ll la rc entries
    induction entries with
    | nil => intro st subs h; simpa [dir_scan] using h
    | cons e rest ih =>
      intro st subs h
      simp only [dir_scan]
      split
      · exact ih st subs h
      · split
        · split
          · split
            · split
              · next hlt =>
                refine ih _ _ ?_
                intro s hs
                rcases List.mem_append.mp hs with h1 | h2
                · exact h s h1
                · rw [List.mem_singleton.mp h2]
                  exact c_truncate_length_le _ 255
              · exact ih _ subs h
            · exact ih _ subs h
          · exact ih _ subs h
        · exact ih _ subs h

/-- C5 witness: the theorem applied to the tree fixture; the stored
subdirectory list of `root` respects both bounds. -/
theorem C5_witness :
    (dir_scan fs_tree ⟨false, false⟩ "root" false false true ["a.txt", "sub"] init_st []).2.length ≤
      1024 ∧
    ("root/sub" : String).length ≤ 255 :=
  ⟨C5_theorem.1 fs_tree ⟨false, false⟩ "root" false false true ["a.txt", "sub"] init_st []
      (by decide),
   C5_theorem.2.1 fs_tree ⟨false, false⟩ "root" false false true ["a.txt", "sub"] init_st []
      (by simp) "root/sub" (by decide)⟩

/-- C7 counterexample: with no path arguments and recursion on, the driver
prints a `.:` header and `list_dir` then prints the same header again, so
the default current-directory target is preceded by two header lines, not
exactly one. -/
theorem C7_counterexample :
    (ls_main fs_dot ⟨false, false⟩ 1 [] false false true).out = [".:", ".:"] ∧
    ([".:", ".:"] : List String) ≠ [".:"] := by
  decide

/-- C7 as amended: with recursion enabled and a single explicit directory
target, each directory listed is preceded by exactly one header naming it
and every header after the first by one blank separator line, with the
tree `root/{a.txt, sub/{b.txt}}` visited as `root` then `root/sub`; the
default current-directory target is the exception — its header is printed
twice, once by the driver and once by the walker. -/
theorem C7_theorem :
    (ls_main fs_tree ⟨false, false⟩ 3 ["root"] false false true).out =
      ["root:", "a.txt", "sub/", "", "root/sub:", "b.txt"] ∧
    (ls_main fs_dot ⟨false, false⟩ 1 [] false false true).out = [".:", ".:"] := by
  decide

/-- C8: `handle_error` ORs into the accumulator the general-error bit 64
plus exactly one cause-specific bit selected by the errno classification
(`ENOENT` → 8, `EACCES`/`EPERM` → 16, otherwise 32), and every listing
operation only ever ORs into `err_code`, so a bit once set is never
cleared anywhere in a run. -/
theorem C8_theorem :
    (∀ (fs : FS) (w f : String) (e : Errno) (st : St),
        (handle_error fs w f e st).err_code = st.err_code ||| 64 ||| cause_bit e) ∧
    (cause_bit .enoent = 8 ∧ cause_bit .eacces = 16 ∧
      cause_bit .eperm = 16 ∧ cause_bit .eother = 32) ∧
    (∀ e : Errno, cause_bit e = 8 ∨ cause_bit e = 16 ∨ cause_bit e = 32) ∧
    (∀ (fs : FS) (w f : String) (e : Errno) (st : St) (i : Nat),
        st.err_code.testBit i = true →
        (handle_error fs w f e st).err_code.testBit i = true) ∧
    (∀ (fs : FS) (g : Globals) (p n : String) (ll : Bool) (st : St) (i : Nat),
        st.err_code.testBit i = true →
        (list_file fs g p n ll st).err_code.testBit i = true) ∧
    (∀ (fs : FS) (g : Globals) (fuel : Nat) (dn : String) (ll la rc : Bool) (st : St) (i : Nat),
        st.err_code.testBit i = true →
        (list_dir fs g fuel dn ll la rc st).err_code.testBit i = true) ∧
    (∀ (fs : FS) (g : Globals) (fuel : Nat) (multi ll la rc : Bool) (args : List String)
        (st : St) (i : Nat),
        st.err_code.testBit i = true →
        (process_args fs g fuel multi ll la rc args st).err_code.testBit i = true) := by
  refine ⟨fun _ _ _ _ _ => rfl, ⟨rfl, rfl, rfl, rfl⟩, ?_, ?_, ?_, ?_, ?_⟩
  · intro e
    cases e
    · exact Or.inl rfl
    · exact Or.inr (Or.inl rfl)
    · exact Or.inr (Or.inl rfl)
    · exact Or.inr (Or.inr rfl)
  · intro fs w f e st i h
    exact err_le_handle_error fs w f e st i h
  · intro fs g p n ll st i h
    exact err_le_list_file fs g p n ll st i h
  · intro fs g fuel dn ll la rc st i h
    exact err_le_list_dir fs g fuel dn ll la rc st i h
  · intro fs g fuel multi ll la rc args st i h
    exact err_le_process_args fs g fuel multi ll la rc args st i h

/-- C8 witness: the never-cleared property applied concretely — a state
that already carries the general-error bit keeps it through a whole
argument pass. -/
theorem C8_witness :
    (process_args fs_dot ⟨false, false⟩ 1 false false false false ["x"]
      { init_st with err_code := 64 }).err_code.testBit 6 = true :=
  C8_theorem.2.2.2.2.2.2 fs_dot ⟨false, false⟩ 1 false false false false ["x"]
    { init_st with err_code := 64 } 6 (by decide)

/-- C9: a target whose stat fails with `ENOENT` produces no listing
output, contributes exactly one diagnostic line, lets the run continue
with the remaining targets from the updated state, and leaves the
not-found bit (bit 3, value 8) set in the final exit status of any run
whose argument list contains it. -/
theorem C9_theorem (fs : FS) (g : Globals) (fuel : Nat) (multi ll la rc : Bool)
    (t : String) (rest : List String) (st : St)
    (h : fs.lstat t = .error .enoent) :
    process_args fs g fuel multi ll la rc (t :: rest) st =
      process_args fs g fuel multi ll la rc rest
        (handle_error fs "cannot access" t .enoent st) ∧
    (handle_error fs "cannot access" t .enoent st).out = st.out ∧
    (handle_error fs "cannot access" t .enoent st).diag =
      st.diag ++ ["ls: cannot access " ++ t ++ ": " ++ fs.strerror .enoent] ∧
    (handle_error fs "cannot access" t .enoent st).err_code = st.err_code ||| 64 ||| 8 ∧
    (process_args fs g fuel multi ll la rc (t :: rest) st).err_code.testBit 3 = true ∧
    (∀ args : List String, t ∈ args →
      (ls_main fs g fuel args ll la rc).err_code.testBit 3 = true) := by
  refine ⟨process_args_enoent_head fs g fuel multi ll la rc t rest st h, rfl, rfl, rfl, ?_, ?_⟩
  · rw [process_args_enoent_head fs g fuel multi ll la rc t rest st h]
    exact err_le_process_args fs g fuel multi ll la rc rest _ 3
      (handle_error_enoent_bit3 fs "cannot access" t st)
  · intro args hm
    cases args with
    | nil => cases hm
    | cons a rest' =>
      simp only [ls_main, List.isEmpty_cons, Bool.false_eq_true, if_false]
      split
      · exact process_args_mem_enoent fs g fuel _ ll la rc t h (a :: rest') init_st hm
      · exact process_args_mem_enoent fs g fuel _ ll la rc t h (a :: rest') init_st hm

/-- C9 witness: the theorem applied to `fs_dot`, where the target
`missing` does not exist. -/
theorem C9_witness :
    (process_args fs_dot ⟨false, false⟩ 1 false false false false ["missing"]
      init_st).err_code.testBit 3 = true :=
  (C9_theorem fs_dot ⟨false, false⟩ 1 false false false false "missing" [] init_st
    rfl).2.2.2.2.1

/-- C10: in count-only mode `list_file` only increments the counter — for
every filesystem, path and flag it returns the state otherwise unchanged,
before any metadata resolution (the equation holds uniformly in `fs`) —
while with recursion also active the run still writes each directory
header and blank separator to stdout: on the tree fixture the count-mode
recursive output is exactly the two headers, the separator, and the final
total 3, with no per-entry lines. -/
theorem C10_theorem :
    (∀ (fs : FS) (hr : Bool) (p n : String) (ll : Bool) (st : St),
        list_file fs ⟨true, hr⟩ p n ll st = { st with file_count := st.file_count + 1 }) ∧
    (ls_main fs_tree ⟨true, false⟩ 3 ["root"] false false true).out =
      ["root:", "", "root/sub:", "3"] ∧
    (ls_main fs_tree ⟨true, false⟩ 3 ["root"] false false true).file_count = 3 :=
  ⟨fun _ _ _ _ _ _ => rfl, by decide, by decide⟩

end CustomLS
